import Mathlib

/-!
Shallow embedding of the CodeX signaling relay and peer-connection
orchestration subsystem, together with proofs of the behavioural claims.

Translated sources:
* `src/server/state/inMemory_utf8.ts` — session registry;
* `src/server/sessions/join` (module with `join`/`getSessionForSocket`/
  `removeSocket`) — socket→session binding layer;
* `src/server/ws/registry.ts` — connection send registry;
* `src/server/ws/signaling` (the router with `handle`/`handleJoin`/
  `handleRequestState`) — signaling router;
* `src/client/src/audio/webrtc.ts` — per-peer connection state machines.

JavaScript `Map`s and `Set`s are modelled as insertion-ordered association
lists / lists, and string truthiness (`undefined` and `""` are falsy) is
made explicit wherever the source relies on it.
-/

namespace CodeX

/-- JS truthiness of an optional string: `undefined` and `""` are falsy. -/
def strTruthy : Option String → Bool
  | none => false
  | some s => s != ""

/-- `Map.get` on an insertion-ordered association list. -/
def mapGet {α : Type} (m : List (String × α)) (k : String) : Option α :=
  (m.find? (fun p => p.1 == k)).map (fun p => p.2)

/-- The in-place update applied by `Map.set` to each entry. -/
def updEntry {α : Type} (k : String) (v : α) (p : String × α) : String × α :=
  if p.1 == k then (k, v) else p

/-- `Map.set`: update the existing entry in place, or append a new one. -/
def mapSet {α : Type} (m : List (String × α)) (k : String) (v : α) :
    List (String × α) :=
  if (m.find? (fun p => p.1 == k)).isSome then m.map (updEntry k v)
  else m ++ [(k, v)]

/-- `Map.delete`. -/
def mapDelete {α : Type} (m : List (String × α)) (k : String) :
    List (String × α) :=
  m.filter (fun p => p.1 != k)

/-- `Set.add` on an insertion-ordered duplicate-free list. -/
def setAdd (l : List String) (x : String) : List String :=
  if x ∈ l then l else l ++ [x]

/-- `Set.delete`. -/
def setDelete (l : List String) (x : String) : List String :=
  l.filter (fun y => y != x)

/-! ## Session registry (`src/server/state/inMemory_utf8.ts`) -/

inductive Role where
  | teacher
  | student
deriving Repr, DecidableEq

structure InternalSession where
  teacher : Option String
  students : List String
deriving Repr, DecidableEq

structure SessionData where
  sessionId : String
  teacher : Option String
  students : List String
deriving Repr, DecidableEq

abbrev Registry := List (String × InternalSession)

def toPublic (sessionId : String) (s : InternalSession) : SessionData :=
  { sessionId := sessionId, teacher := s.teacher, students := s.students }

/-- `createSession(sessionId, teacherSocketId?)`: ensure the session exists;
if a (truthy) teacher socket id is supplied, install it as teacher and drop
it from the student set. -/
def createSession (sessions : Registry) (sessionId : String)
    (teacherSocketId : Option String) : Registry × SessionData :=
  let s0 := (mapGet sessions sessionId).getD { teacher := none, students := [] }
  let s1 :=
    if strTruthy teacherSocketId then
      { teacher := teacherSocketId,
        students := setDelete s0.students (teacherSocketId.getD "") }
    else s0
  (mapSet sessions sessionId s1, toPublic sessionId s1)

/-- `joinSession(sessionId, socketId, role)`: create the session when absent;
a teacher join installs the socket as teacher and deletes it from the
student set; a student join adds the socket unless it is the teacher. -/
def joinSession (sessions : Registry) (sessionId socketId : String)
    (role : Role) : Registry × SessionData :=
  let s0 := (mapGet sessions sessionId).getD { teacher := none, students := [] }
  let s1 :=
    match role with
    | Role.teacher =>
      { teacher := some socketId, students := setDelete s0.students socketId }
    | Role.student =>
      if s0.teacher == some socketId then s0
      else { s0 with students := setAdd s0.students socketId }
  (mapSet sessions sessionId s1, toPublic sessionId s1)

/-- JS `!s.teacher`: true for `null` and for the empty string. -/
def teacherFalsy : Option String → Bool
  | none => true
  | some s => s == ""

/-- The garbage-collection test of `removeSocket`:
`!s.teacher && s.students.size === 0`. -/
def sessionEmptyJs (s : InternalSession) : Bool :=
  teacherFalsy s.teacher && s.students.isEmpty

/-- One session's view of `removeSocket(socketId)`: clear the teacher slot
and/or delete the student; the flag records whether anything changed. -/
def removeFromSession (socketId : String) (s : InternalSession) :
    InternalSession × Bool :=
  let tChanged := s.teacher == some socketId
  let sChanged := s.students.contains socketId
  ({ teacher := if tChanged then none else s.teacher,
     students := setDelete s.students socketId },
   tChanged || sChanged)

/-- `removeSocket(socketId)` over the registry: returns the new registry,
the ids of sessions deleted because they became empty, and the ids of
sessions that changed but survived. -/
def removeSocketState (socketId : String) :
    Registry → Registry × List String × List String
  | [] => ([], [], [])
  | (id, s) :: rest =>
    let step := removeFromSession socketId s
    let restRes := removeSocketState socketId rest
    if step.2 then
      if sessionEmptyJs step.1 then
        (restRes.1, id :: restRes.2.1, restRes.2.2)
      else
        ((id, step.1) :: restRes.1, restRes.2.1, id :: restRes.2.2)
    else
      ((id, s) :: restRes.1, restRes.2.1, restRes.2.2)

/-- `getSession(sessionId)`. -/
def getSession (sessions : Registry) (sessionId : String) :
    Option SessionData :=
  (mapGet sessions sessionId).map (toPublic sessionId)

/-! ## Socket→session binding layer (`sessions/join`) -/

/-- Server-side state: the session registry plus the
`socketToSession` inverse index. -/
structure ServerState where
  sessions : Registry
  socketToSession : List (String × String)
deriving Repr, DecidableEq

/-- `join(sessionId, socketId, role)` of the sessions layer: validates the
arguments, requires the session to already exist (throwing
`session not found` otherwise), unbinds a socket that is currently bound
to a different session (removing it from every session it occupies and
from the inverse index), performs the registry join and installs the new
binding.  `cancelPendingCleanup` (teacher joins) only cancels a scheduled
timer and touches neither the registry nor the binding, so it has no
footprint in this state. -/
def join (st : ServerState) (sessionId socketId : String) (role : Role) :
    Except String (ServerState × SessionData) :=
  if sessionId == "" then Except.error "sessionId is required"
  else if socketId == "" then Except.error "socketId is required"
  else
    match getSession st.sessions sessionId with
    | none => Except.error ("session not found: " ++ sessionId)
    | some _ =>
      let current := mapGet st.socketToSession socketId
      let needUnbind := strTruthy current && current != some sessionId
      let st1 : ServerState :=
        if needUnbind then
          { sessions := (removeSocketState socketId st.sessions).1,
            socketToSession := mapDelete st.socketToSession socketId }
        else st
      let res := joinSession st1.sessions sessionId socketId role
      let st2 : ServerState :=
        { sessions := res.1,
          socketToSession := mapSet st1.socketToSession socketId sessionId }
      Except.ok (st2, res.2)

/-- `getSessionForSocket(socketId)`. -/
def getSessionForSocket (st : ServerState) (socketId : String) :
    Option String :=
  mapGet st.socketToSession socketId

/-- The sessions layer's `removeSocket`: drop the binding, then remove the
socket from the registry. -/
def removeSocketServer (st : ServerState) (socketId : String) :
    ServerState × List String × List String :=
  let binding := mapDelete st.socketToSession socketId
  let r := removeSocketState socketId st.sessions
  ({ sessions := r.1, socketToSession := binding }, r.2.1, r.2.2)

/-! ## Connection send registry (`src/server/ws/registry.ts`) -/

/-- A registered transport handle: its `readyState` and whether its raw
`send` would throw if invoked. -/
structure WsSocket where
  readyState : Nat
  sendThrows : Bool
deriving Repr, DecidableEq

abbrev SocketTable := List (String × WsSocket)

inductive SendOutcome where
  | notFound
  | delivered
  | droppedNotOpen
  | sendError
deriving Repr, DecidableEq

/-- The raw `ws.send`, which may throw. -/
def wsSendRaw (ws : WsSocket) : Except String Unit :=
  if ws.sendThrows then Except.error "send failed" else Except.ok ()

/-- `safeSend`: only sends when `readyState === 1`; a throw from the raw
send is caught and logged, so `safeSend` itself never throws. -/
def safeSend (ws : WsSocket) : SendOutcome :=
  if ws.readyState == 1 then
    match wsSendRaw ws with
    | Except.ok _ => SendOutcome.delivered
    | Except.error _ => SendOutcome.sendError
  else SendOutcome.droppedNotOpen

/-- `sendTo(socketId, message)`: `false` when the socket id is not
registered, otherwise `true` together with the `safeSend` outcome.  Every
throwing call site is wrapped in a catch, so the function is total. -/
def sendTo (table : SocketTable) (socketId : String) : Bool × SendOutcome :=
  match mapGet table socketId with
  | none => (false, SendOutcome.notFound)
  | some ws => (true, safeSend ws)

/-- `sendMany(socketIds, message)`: the sequential for-loop over the ids. -/
def sendMany (table : SocketTable) : List String → List (Bool × SendOutcome)
  | [] => []
  | id :: rest => sendTo table id :: sendMany table rest

/-! ## Late-join state cache

Modelled from the spec: the accessors `getPatches`, `getLastAvatar`,
`getLastPhoto` and `getLastLandmarks` imported by the signaling router are
not among the analysed sources; per the spec the cache holds, per session,
an ordered sequence of board patches (accumulated in arrival order) and at
most one latest avatar pose, one latest photo (with width and height, the
stored record may carry ancillary landmark data that is never replayed)
and one latest landmark set, each last-value-wins. -/

structure StoredPhoto where
  photo : String
  w : Nat
  h : Nat
  ancillary : Option String
deriving Repr, DecidableEq

structure CacheState where
  patches : List String
  lastAvatar : Option String
  lastPhoto : Option StoredPhoto
  lastLandmarks : Option String
deriving Repr, DecidableEq

def emptyCache : CacheState :=
  { patches := [], lastAvatar := none, lastPhoto := none, lastLandmarks := none }

abbrev CacheTable := List (String × CacheState)

def getPatches (c : CacheTable) (sid : String) : List String :=
  ((mapGet c sid).getD emptyCache).patches

def getLastAvatar (c : CacheTable) (sid : String) : Option String :=
  ((mapGet c sid).getD emptyCache).lastAvatar

def getLastPhoto (c : CacheTable) (sid : String) : Option StoredPhoto :=
  ((mapGet c sid).getD emptyCache).lastPhoto

def getLastLandmarks (c : CacheTable) (sid : String) : Option String :=
  ((mapGet c sid).getD emptyCache).lastLandmarks

/-! ## Signaling router (`handle` / `handleJoin` / `handleRequestState`) -/

/-- An inbound `/signal` payload.  Optional fields model fields that are
present with a string value; a field that is absent or not a string is
`none` (the source tests `typeof p.targetSocketId === "string"`). -/
structure SignalPayload where
  type : String
  sessionId : Option String
  roleField : Option String
  targetSocketId : Option String
  recipient : Option String
  fromField : Option String
  body : String
deriving Repr, DecidableEq

/-- The body of an outbound wire envelope. -/
inductive WirePayload where
  | relay (p : SignalPayload)
  | peerJoined (sender : String) (role : String)
  | boardPatch (p : String)
  | avatarPose (a : String)
  | avatarPhoto (photo : String) (w h : Nat)
  | avatarLandmarks (l : String)
deriving Repr, DecidableEq

/-- An outbound envelope.  `envFrom` is the top-level `from` field of the
replay envelopes: `none` when the field is absent, `some t` when it is
present with the (nullable) value `t`. -/
structure Envelope where
  channel : String
  payload : WirePayload
  envFrom : Option (Option String)
deriving Repr, DecidableEq

/-- One attempted unicast: the target socket id and the envelope. -/
structure Attempt where
  target : String
  env : Envelope
deriving Repr, DecidableEq

/-- The relayed copy of a negotiation payload:
`{ channel: "/signal", payload: { ...p, from } }` — the spread followed by
the `from` property overwrites any client-supplied `from`. -/
def relayEnvelope (p : SignalPayload) (sender : String) : Envelope :=
  { channel := "/signal",
    payload := WirePayload.relay { p with fromField := some sender },
    envFrom := none }

/-- The `peer-joined` notification envelope. -/
def peerJoinedEnvelope (sender roleStr : String) : Envelope :=
  { channel := "/signal",
    payload := WirePayload.peerJoined sender roleStr,
    envFrom := none }

/-- Router state: the server session state plus the late-join cache. -/
structure RouterState where
  server : ServerState
  cache : CacheTable
deriving Repr, DecidableEq

/-- The per-session cache record the getters read. -/
def cacheFor (cache : CacheTable) (sid : String) : CacheState :=
  (mapGet cache sid).getD emptyCache

/-- The replay sends of `handleJoin` (and, with `teacherId := none`, of
`handleRequestState`, whose envelopes carry `from: null`): every cached
board patch in order, each in its own `/board` envelope and its own
try/catch; then the last avatar pose; then the last photo reduced to
`photo`/`w`/`h`; then the last landmarks — each step separately guarded,
all unicast to the triggering socket. -/
def joinReplayAttempts (c : CacheState) (sock : String)
    (teacherId : Option String) : List Attempt :=
  (if c.patches.length > 0 then
     c.patches.map fun q =>
       { target := sock,
         env := { channel := "/board", payload := WirePayload.boardPatch q,
                  envFrom := some teacherId } }
   else [])
  ++ (match c.lastAvatar with
      | some a =>
        [{ target := sock,
           env := { channel := "/avatar", payload := WirePayload.avatarPose a,
                    envFrom := some teacherId } }]
      | none => [])
  ++ (match c.lastPhoto with
      | some ph =>
        [{ target := sock,
           env := { channel := "/avatar",
                    payload := WirePayload.avatarPhoto ph.photo ph.w ph.h,
                    envFrom := some teacherId } }]
      | none => [])
  ++ (match c.lastLandmarks with
      | some l =>
        [{ target := sock,
           env := { channel := "/avatar",
                    payload := WirePayload.avatarLandmarks l,
                    envFrom := some teacherId } }]
      | none => [])

/-- `handleJoin`: validate `sessionId` and `role`, perform the sessions
layer `join` (a throw is caught: no sends, no state change), notify the
opposite role group with `peer-joined`, and for a joining student replay
the cached board patches, then the last avatar pose, then the last photo
(reduced to `photo`/`w`/`h`), then the last landmarks — each send wrapped
in its own try/catch so one failure never aborts the rest. -/
def handleJoin (st : RouterState) (socketId : String) (p : SignalPayload) :
    RouterState × List Attempt :=
  match p.sessionId with
  | none => (st, [])
  | some sid =>
    if sid == "" then (st, [])
    else
      match p.roleField with
      | none => (st, [])
      | some r =>
        if r != "teacher" && r != "student" then (st, [])
        else
          let role := if r == "teacher" then Role.teacher else Role.student
          match join st.server sid socketId role with
          | Except.error _ => (st, [])
          | Except.ok (server1, session) =>
            let st1 : RouterState := { st with server := server1 }
            let notify := peerJoinedEnvelope socketId r
            if r == "teacher" then
              (st1, session.students.map fun s => { target := s, env := notify })
            else
              let notifyAtts : List Attempt :=
                if strTruthy session.teacher then
                  [{ target := session.teacher.getD "", env := notify }]
                else []
              (st1, notifyAtts
                ++ joinReplayAttempts (cacheFor st.cache sid) socketId
                     session.teacher)

/-- `handleRequestState`: resolve the session id (explicit string field,
else the sender's binding; a falsy result is dropped) and replay the
cached state to the requesting connection only, with a top-level
`from: null`, in the same fixed order as the join replay. -/
def handleRequestState (st : RouterState) (socketId : String)
    (p : SignalPayload) : RouterState × List Attempt :=
  let sid0 :=
    match p.sessionId with
    | some s => some s
    | none => getSessionForSocket st.server socketId
  match sid0 with
  | none => (st, [])
  | some sid =>
    if sid == "" then (st, [])
    else (st, joinReplayAttempts (cacheFor st.cache sid) socketId none)

/-- `handle(ws, payload)`: dispatch `join` and `request-state`, and route
every other payload by the addressing precedence — explicit
`targetSocketId`, then `recipient === "teacher"`, then
`recipient === "students"`, then the default broadcast rule. -/
def handleSignal (st : RouterState) (sender : String) (p : SignalPayload) :
    RouterState × List Attempt :=
  if sender == "" then (st, [])
  else if p.type == "join" then handleJoin st sender p
  else if p.type == "request-state" then handleRequestState st sender p
  else
    match getSessionForSocket st.server sender with
    | none => (st, [])
    | some sid =>
      if sid == "" then (st, [])
      else
        match getSession st.server.sessions sid with
        | none => (st, [])
        | some session =>
          let out := relayEnvelope p sender
          match p.targetSocketId with
          | some t => (st, [{ target := t, env := out }])
          | none =>
            if p.recipient == some "teacher" then
              (st,
               if strTruthy session.teacher then
                 [{ target := session.teacher.getD "", env := out }]
               else [])
            else if p.recipient == some "students" then
              (st, session.students.map fun s => { target := s, env := out })
            else if session.teacher == some sender then
              (st, session.students.map fun s => { target := s, env := out })
            else
              (st,
               if strTruthy session.teacher then
                 [{ target := session.teacher.getD "", env := out }]
               else [])

/-! ## Peer-connection orchestrators (`src/client/src/audio/webrtc.ts`) -/

abbrev Cand := String
abbrev Sdp := String

/-- The per-connection state held by `createPC`'s closure together with
the observable history of the underlying `RTCPeerConnection`:
`queuedIce`/`remoteDescSet` are the closure variables, `appliedIce`
records every candidate handed to the native `addIceCandidate` in call
order, and `remoteDesc` the remote description installed by
`setRemoteDescription`. -/
structure PCState where
  queuedIce : List Cand
  remoteDescSet : Bool
  appliedIce : List Cand
  remoteDesc : Option Sdp
deriving Repr, DecidableEq

def freshPC : PCState :=
  { queuedIce := [], remoteDescSet := false, appliedIce := [], remoteDesc := none }

/-- `addIceCandidate` of `createPC`: queue while `remoteDescSet` is false,
otherwise pass the candidate straight to the native call (whose own error
is caught and the candidate dropped). -/
def pcAddIceCandidate (s : PCState) (c : Cand) : PCState :=
  if !s.remoteDescSet then { s with queuedIce := s.queuedIce ++ [c] }
  else { s with appliedIce := s.appliedIce ++ [c] }

/-- `flushQueue` of `createPC`: set `remoteDescSet`, then shift the queued
candidates one by one into the native call, strictly in arrival order. -/
def pcFlushQueue (s : PCState) : PCState :=
  { s with remoteDescSet := true,
           appliedIce := s.appliedIce ++ s.queuedIce,
           queuedIce := [] }

/-- `pc.setRemoteDescription`. -/
def pcSetRemoteDescription (s : PCState) (d : Sdp) : PCState :=
  { s with remoteDesc := some d }

/-- A `TeacherAudioManager` entry for one student. -/
structure TeacherEntry where
  pc : PCState
  restartAttempts : Nat
deriving Repr, DecidableEq

/-- The externally visible events touching one broadcaster-side entry.
`addStudentBegin` is the point where `addStudent` installs the fresh entry
into `pcs` (before the offer is created); `addStudentFinish` is the end of
`addStudent`, which sends the offer and then calls `flushQueue()`. -/
inductive TeacherEvent where
  | addStudentBegin
  | addStudentFinish
  | answer (sdp : Sdp)
  | ice (c : Cand)
deriving Repr, DecidableEq

/-- One broadcaster-side entry's reaction to an event (`addStudent` is a
no-op when the entry already exists; `handleAnswer`/`handleIce` are no-ops
when it does not). -/
def teacherStep (st : Option TeacherEntry) :
    TeacherEvent → Option TeacherEntry
  | TeacherEvent.addStudentBegin =>
    match st with
    | some _ => st
    | none => some { pc := freshPC, restartAttempts := 0 }
  | TeacherEvent.addStudentFinish =>
    match st with
    | some ent => some { ent with pc := pcFlushQueue ent.pc }
    | none => none
  | TeacherEvent.answer sdp =>
    match st with
    | some ent => some { ent with pc := pcSetRemoteDescription ent.pc sdp }
    | none => none
  | TeacherEvent.ice c =>
    match st with
    | some ent => some { ent with pc := pcAddIceCandidate ent.pc c }
    | none => none

/-- Run a sequence of broadcaster-side events against one entry. -/
def teacherRun (st : Option TeacherEntry) : List TeacherEvent → Option TeacherEntry
  | [] => st
  | e :: rest => teacherRun (teacherStep st e) rest

/-- What a restart handler does, observably. -/
inductive RestartAction where
  | sendRestartOffer (recipient : String) (targetSocketId : String)
  | scheduleRecreate (delayMs : Nat)
  | closeNoRecreate
  | noEntry
deriving Repr, DecidableEq

/-- `TeacherAudioManager.attemptRestart`: `ent.restartAttempts++ >= 3`
tests the old value and always increments; at the fourth failure the entry
is deleted and `addStudent` is re-scheduled after a fixed 1500 ms,
otherwise a new offer with `iceRestart` is sent to
`recipient: "students"` with the explicit target. -/
def teacherAttemptRestart (targetSocketId : String)
    (st : Option TeacherEntry) : Option TeacherEntry × RestartAction :=
  match st with
  | none => (none, RestartAction.noEntry)
  | some ent =>
    if ent.restartAttempts ≥ 3 then
      (none, RestartAction.scheduleRecreate 1500)
    else
      (some { ent with restartAttempts := ent.restartAttempts + 1 },
       RestartAction.sendRestartOffer "students" targetSocketId)

/-- Iterate `failed`/`disconnected` observations on the broadcaster side,
collecting the actions. -/
def teacherFailures (targetSocketId : String) :
    Nat → Option TeacherEntry → Option TeacherEntry × List RestartAction
  | 0, st => (st, [])
  | n + 1, st =>
    let first := teacherAttemptRestart targetSocketId st
    let rest := teacherFailures targetSocketId n first.1
    (rest.1, first.2 :: rest.2)

/-- A `StudentAudioManager` entry (single peer). -/
structure StudentEntry where
  pc : PCState
  restartAttempts : Nat
deriving Repr, DecidableEq

/-- `StudentAudioManager.handleOffer`: discard any previous entry, build a
fresh connection, apply the remote description, flush the (necessarily
empty, freshly created) queue, send the answer and only then install the
entry.  Candidates delivered while no entry is installed are dropped by
`handleIce`. -/
def studentHandleOffer (sdp : Sdp) :
    Option StudentEntry × RestartAction :=
  let pc0 := freshPC
  let pc1 := pcSetRemoteDescription pc0 sdp
  let pc2 := pcFlushQueue pc1
  (some { pc := pc2, restartAttempts := 0 },
   RestartAction.sendRestartOffer "teacher" "")

/-- `StudentAudioManager.handleIce`: delegate to the entry when one
exists, silently drop the candidate otherwise. -/
def studentHandleIce (st : Option StudentEntry) (c : Cand) :
    Option StudentEntry :=
  match st with
  | none => none
  | some ent => some { ent with pc := pcAddIceCandidate ent.pc c }

/-- `StudentAudioManager.attemptRestart`: tests `restartAttempts >= 3`
without ever incrementing the counter; below the bound it sends a new
offer with `iceRestart` to `recipient: "teacher"`, at the bound it closes
and discards the entry without scheduling a reconstruction. -/
def studentAttemptRestart (teacherSocketId : String)
    (st : Option StudentEntry) : Option StudentEntry × RestartAction :=
  match st with
  | none => (none, RestartAction.noEntry)
  | some ent =>
    if ent.restartAttempts ≥ 3 then
      (none, RestartAction.closeNoRecreate)
    else
      (some ent, RestartAction.sendRestartOffer "teacher" teacherSocketId)

/-- Iterate `failed`/`disconnected` observations on the receiver side. -/
def studentFailures (teacherSocketId : String) :
    Nat → Option StudentEntry → Option StudentEntry × List RestartAction
  | 0, st => (st, [])
  | n + 1, st =>
    let first := studentAttemptRestart teacherSocketId st
    let rest := studentFailures teacherSocketId n first.1
    (rest.1, first.2 :: rest.2)

/-! ## Claim C10 — send registry semantics -/

/-- C10: `sendTo(socketId, message)` never throws (every throwing call
site in it is caught, so its embedding is a total function) and returns
`false` exactly when the socket id is absent from the registry; a
registered socket whose transport is not open results in a silent drop
with return value `true`; and `sendMany` processes every id of its list,
i.e. it equals the element-wise map of `sendTo`, so a failure on an
earlier id never prevents the attempts on the later ones. -/
theorem sendTo_false_iff_unregistered (table : SocketTable) (id : String) :
    ((sendTo table id).1 = false ↔ mapGet table id = none)
    ∧ (∀ ws, mapGet table id = some ws → ws.readyState ≠ 1 →
        sendTo table id = (true, SendOutcome.droppedNotOpen))
    ∧ (∀ ids : List String, sendMany table ids = ids.map (sendTo table)) := by
  refine ⟨?_, ?_, ?_⟩
  · cases h : mapGet table id <;> simp [sendTo, h]
  · intro ws hws hstate
    simp [sendTo, hws, safeSend, hstate]
  · intro ids
    induction ids with
    | nil => rfl
    | cons x xs ih => simp [sendMany, ih]

/-- Witness for C10 at a concrete registry: socket `a` open, socket `b`
registered but closed, socket `c` unregistered. -/
theorem sendTo_false_iff_unregistered_witness :
    ((sendTo [("a", ⟨1, false⟩), ("b", ⟨3, false⟩)] "c").1 = false
      ↔ mapGet [("a", (⟨1, false⟩ : WsSocket)), ("b", ⟨3, false⟩)] "c" = none)
    ∧ sendTo [("a", ⟨1, false⟩), ("b", ⟨3, false⟩)] "b"
        = (true, SendOutcome.droppedNotOpen)
    ∧ sendMany [("a", (⟨1, false⟩ : WsSocket)), ("b", ⟨3, false⟩)] ["a", "b", "c"]
        = ["a", "b", "c"].map (sendTo [("a", ⟨1, false⟩), ("b", ⟨3, false⟩)]) := by
  refine ⟨(sendTo_false_iff_unregistered _ "c").1, ?_, ?_⟩
  · exact (sendTo_false_iff_unregistered [("a", ⟨1, false⟩), ("b", ⟨3, false⟩)] "b").2.1
      ⟨3, false⟩ (by decide) (by decide)
  · exact (sendTo_false_iff_unregistered [("a", ⟨1, false⟩), ("b", ⟨3, false⟩)] "b").2.2
      ["a", "b", "c"]

/-! ## Association-list and set lemmas -/

theorem mapGet_cons {α : Type} (p : String × α) (rest : List (String × α))
    (k : String) :
    mapGet (p :: rest) k = if p.1 == k then some p.2 else mapGet rest k := by
  by_cases h : p.1 == k <;> simp [mapGet, List.find?, h]

theorem mapGet_append {α : Type} (m m' : List (String × α)) (k : String) :
    mapGet (m ++ m') k =
      match mapGet m k with
      | some v => some v
      | none => mapGet m' k := by
  induction m with
  | nil => simp [mapGet]
  | cons p rest ih =>
    by_cases h : p.1 == k <;> simp [mapGet_cons, h, ih]

theorem mapGet_mem {α : Type} {m : List (String × α)} {k : String} {v : α}
    (h : mapGet m k = some v) : (k, v) ∈ m := by
  induction m with
  | nil => simp [mapGet] at h
  | cons p rest ih =>
    rw [mapGet_cons] at h
    by_cases hp : (p.1 == k) = true
    · simp [hp] at h
      have hp1 : p.1 = k := by simpa using hp
      have hkv : (k, v) = p := by
        cases p
        simp_all
      rw [hkv]
      exact List.mem_cons_self _ _
    · simp [hp] at h
      exact List.mem_cons_of_mem _ (ih h)

theorem mapGet_eq_none_of_keys {α : Type} {m : List (String × α)} {k : String}
    (h : ∀ e ∈ m, e.1 ≠ k) : mapGet m k = none := by
  induction m with
  | nil => rfl
  | cons p rest ih =>
    rw [mapGet_cons]
    have hp : ¬ (p.1 == k) = true := by
      simpa using h p (List.mem_cons_self p rest)
    simp [hp]
    exact ih fun e he => h e (List.mem_cons_of_mem _ he)

theorem updEntry_pos {α : Type} {k : String} (v : α) {p : String × α}
    (h : (p.1 == k) = true) : updEntry k v p = (k, v) := by
  simp [updEntry, h]

theorem updEntry_neg {α : Type} {k : String} (v : α) {p : String × α}
    (h : ¬ (p.1 == k) = true) : updEntry k v p = p := by
  simp [updEntry, h]

theorem find?_cons_pair {α : Type} (p : String × α) (rest : List (String × α))
    (k : String) :
    List.find? (fun q => q.1 == k) (p :: rest)
      = if (p.1 == k) = true then some p
        else List.find? (fun q => q.1 == k) rest := by
  by_cases hp : (p.1 == k) = true <;> simp [List.find?_cons, hp]

theorem mapGet_map_upd_self {α : Type} (m : List (String × α)) (k : String)
    (v : α) :
    mapGet (m.map (updEntry k v)) k
      = if (m.find? (fun p => p.1 == k)).isSome then some v else none := by
  induction m with
  | nil => simp [mapGet]
  | cons p rest ih =>
    by_cases hp : (p.1 == k) = true
    · rw [List.map_cons, updEntry_pos v hp, mapGet_cons, find?_cons_pair,
        if_pos hp]
      simp
    · rw [List.map_cons, updEntry_neg v hp, mapGet_cons, find?_cons_pair,
        if_neg hp, if_neg hp]
      simp [ih]

theorem mapGet_map_upd_ne {α : Type} (m : List (String × α)) (k k' : String)
    (v : α) (hkk : k ≠ k') :
    mapGet (m.map (updEntry k v)) k' = mapGet m k' := by
  induction m with
  | nil => rfl
  | cons p rest ih =>
    by_cases hp : (p.1 == k) = true
    · have hp1 : p.1 = k := by simpa using hp
      have h1 : ¬ (k == k') = true := by simpa using hkk
      rw [List.map_cons, updEntry_pos v hp, mapGet_cons, mapGet_cons]
      simp [h1, hp1, ih]
    · rw [List.map_cons, updEntry_neg v hp, mapGet_cons, mapGet_cons]
      simp [ih]

theorem mapGet_isSome_find {α : Type} {m : List (String × α)} {k : String}
    {v : α} (h : mapGet m k = some v) :
    (m.find? (fun p => p.1 == k)).isSome = true := by
  unfold mapGet at h
  cases hx : m.find? (fun p => p.1 == k) with
  | none => rw [hx] at h; simp at h
  | some p => simp [hx]

theorem mapGet_none_find {α : Type} {m : List (String × α)} {k : String}
    (h : ¬ (m.find? (fun p => p.1 == k)).isSome = true) :
    mapGet m k = none := by
  unfold mapGet
  cases hx : m.find? (fun p => p.1 == k) with
  | none => rfl
  | some p => rw [hx] at h; simp at h

theorem mapGet_mapSet_self {α : Type} (m : List (String × α)) (k : String)
    (v : α) : mapGet (mapSet m k v) k = some v := by
  unfold mapSet
  by_cases hf : (m.find? (fun p => p.1 == k)).isSome = true
  · rw [if_pos hf, mapGet_map_upd_self]
    simp [hf]
  · have hk : mapGet m k = none := mapGet_none_find hf
    rw [if_neg hf, mapGet_append]
    simp [hk, mapGet_cons]

theorem mapGet_mapSet_ne {α : Type} (m : List (String × α)) (k k' : String)
    (v : α) (h : k ≠ k') : mapGet (mapSet m k v) k' = mapGet m k' := by
  unfold mapSet
  by_cases hf : (m.find? (fun p => p.1 == k)).isSome = true
  · rw [if_pos hf, mapGet_map_upd_ne _ _ _ _ h]
  · rw [if_neg hf, mapGet_append]
    cases hm : mapGet m k' with
    | some w => rfl
    | none =>
      have hk' : ¬ (k == k') = true := by simpa using h
      simp [mapGet_cons, hk', mapGet]

theorem mapGet_mapDelete_self {α : Type} (m : List (String × α)) (k : String) :
    mapGet (mapDelete m k) k = none := by
  apply mapGet_eq_none_of_keys
  intro e he
  have := List.of_mem_filter he
  simpa using this

theorem mem_mapSet {α : Type} {m : List (String × α)} {k : String} {v : α}
    {e : String × α} (h : e ∈ mapSet m k v) : e ∈ m ∨ e = (k, v) := by
  unfold mapSet at h
  by_cases hf : (m.find? (fun p => p.1 == k)).isSome
  · simp only [hf, if_true] at h
    obtain ⟨p, hp, hpe⟩ := List.mem_map.1 h
    by_cases hpk : (p.1 == k) = true
    · right; rw [updEntry_pos v hpk] at hpe; exact hpe.symm
    · left; rw [updEntry_neg v hpk] at hpe; rwa [hpe] at hp
  · simp only [hf, if_false] at h
    rcases List.mem_append.1 h with h1 | h1
    · exact Or.inl h1
    · right; simpa using h1

theorem mem_setAdd {l : List String} {x y : String} (h : y ∈ setAdd l x) :
    y ∈ l ∨ y = x := by
  unfold setAdd at h
  by_cases hx : x ∈ l
  · simp [hx] at h; exact Or.inl h
  · simp [hx] at h; exact h

theorem not_mem_setDelete_self (l : List String) (x : String) :
    x ∉ setDelete l x := by
  intro h
  have := List.of_mem_filter h
  simp at this

theorem mem_setDelete {l : List String} {x y : String}
    (h : y ∈ setDelete l x) : y ∈ l :=
  List.mem_of_mem_filter h

/-- Well-formedness of an association list: its keys are pairwise
distinct (true of every JS `Map` image). -/
def KeysNodup {α : Type} (m : List (String × α)) : Prop :=
  (m.map Prod.fst).Nodup

theorem list_map_id_of {α : Type} {f : α → α} :
    ∀ {l : List α}, (∀ x ∈ l, f x = x) → l.map f = l := by
  intro l
  induction l with
  | nil => intro _; rfl
  | cons x xs ih =>
    intro h
    simp [List.map_cons, h x (List.mem_cons_self x xs),
      ih fun y hy => h y (List.mem_cons_of_mem _ hy)]

theorem map_upd_eq_self {α : Type} {m : List (String × α)} {k : String}
    {v : α} (hn : KeysNodup m) (h : mapGet m k = some v) :
    m.map (updEntry k v) = m := by
  induction m with
  | nil => rfl
  | cons p rest ih =>
    have hn2 : (p.1 :: rest.map Prod.fst).Nodup := by
      simpa [KeysNodup] using hn
    have hnp : p.1 ∉ rest.map Prod.fst := (List.nodup_cons.1 hn2).1
    have hn' : KeysNodup rest := by
      unfold KeysNodup
      exact (List.nodup_cons.1 hn2).2
    by_cases hp : (p.1 == k) = true
    · have hp1 : p.1 = k := by simpa using hp
      have hv : p.2 = v := by
        rw [mapGet_cons] at h; simpa [hp] using h
      have hhead : updEntry k v p = p := by
        rw [updEntry_pos v hp]
        cases p
        simp_all
      have htail : rest.map (updEntry k v) = rest := by
        apply list_map_id_of
        intro q hq
        apply updEntry_neg
        intro hqk
        apply hnp
        rw [hp1]
        exact List.mem_map.2 ⟨q, hq, by simpa using hqk⟩
      rw [List.map_cons, hhead, htail]
    · have h' : mapGet rest k = some v := by
        rw [mapGet_cons] at h; simpa [hp] using h
      rw [List.map_cons, updEntry_neg v hp, ih hn' h']

theorem mapSet_self {α : Type} {m : List (String × α)} {k : String} {v : α}
    (hn : KeysNodup m) (h : mapGet m k = some v) : mapSet m k v = m := by
  unfold mapSet
  simp [mapGet_isSome_find h, map_upd_eq_self hn h]

theorem keysNodup_eq_of_mem {α : Type} {m : List (String × α)} {k : String}
    {s s' : α} (hn : KeysNodup m) (h : (k, s) ∈ m) (h' : (k, s') ∈ m) :
    s = s' := by
  induction m with
  | nil => simp at h
  | cons p rest ih =>
    have hn2 : (p.1 :: rest.map Prod.fst).Nodup := by
      simpa [KeysNodup] using hn
    have hnp : p.1 ∉ rest.map Prod.fst := (List.nodup_cons.1 hn2).1
    have hn' : KeysNodup rest := by
      unfold KeysNodup
      exact (List.nodup_cons.1 hn2).2
    rcases List.mem_cons.1 h with h1 | h1 <;>
      rcases List.mem_cons.1 h' with h2 | h2
    · rw [← h1] at h2
      injection h2 with h3 h4
      exact h4.symm
    · exfalso
      apply hnp
      rw [← h1]
      exact List.mem_map.2 ⟨(k, s'), h2, rfl⟩
    · exfalso
      apply hnp
      rw [← h2]
      exact List.mem_map.2 ⟨(k, s), h1, rfl⟩
    · exact ih hn' h1 h2

/-! ## Claim C1 — routing precedence of negotiation messages -/

/-- C1: for an inbound `/signal` payload that is neither `join` nor
`request-state`, from a connection bound to an existing session, the
router delivers by first-match-wins precedence: a string `targetSocketId`
wins and the copy goes only there; else `recipient: "teacher"` goes to
the teacher if one exists and to nobody otherwise; else
`recipient: "students"` is multicast to exactly the student set; else the
default rule sends teacher→students or student→teacher (dropped when no
teacher).  (`session.teacher ≠ some ""` holds for every session built by
the router, whose socket ids are non-empty.) -/
theorem routing_precedence (st : RouterState) (sender : String)
    (p : SignalPayload) (sid : String) (session : SessionData)
    (hsender : sender ≠ "")
    (hbind : getSessionForSocket st.server sender = some sid)
    (hsid : sid ≠ "")
    (hsess : getSession st.server.sessions sid = some session)
    (hjoin : p.type ≠ "join")
    (hreq : p.type ≠ "request-state")
    (hteach : session.teacher ≠ some "") :
    (∀ t, p.targetSocketId = some t →
      (handleSignal st sender p).2 = [⟨t, relayEnvelope p sender⟩])
    ∧ (p.targetSocketId = none → p.recipient = some "teacher" →
        (handleSignal st sender p).2 =
          match session.teacher with
          | some t => [⟨t, relayEnvelope p sender⟩]
          | none => [])
    ∧ (p.targetSocketId = none → p.recipient = some "students" →
        (handleSignal st sender p).2 =
          session.students.map fun s => ⟨s, relayEnvelope p sender⟩)
    ∧ (p.targetSocketId = none → p.recipient ≠ some "teacher" →
        p.recipient ≠ some "students" →
        (session.teacher = some sender →
          (handleSignal st sender p).2 =
            session.students.map fun s => ⟨s, relayEnvelope p sender⟩)
        ∧ (session.teacher ≠ some sender →
            (handleSignal st sender p).2 =
              match session.teacher with
              | some t => [⟨t, relayEnvelope p sender⟩]
              | none => [])) := by
  refine ⟨?_, ?_, ?_, ?_⟩
  · intro t ht
    simp [handleSignal, hsender, hjoin, hreq, hbind, hsid, hsess, ht]
  · intro hnone hrec
    cases h : session.teacher with
    | none =>
      simp [handleSignal, hsender, hjoin, hreq, hbind, hsid, hsess, hnone,
        hrec, h, strTruthy]
    | some t =>
      have ht : t ≠ "" := by
        intro h0; exact hteach (by simp [h, h0])
      simp [handleSignal, hsender, hjoin, hreq, hbind, hsid, hsess, hnone,
        hrec, h, strTruthy, ht]
  · intro hnone hrec
    simp [handleSignal, hsender, hjoin, hreq, hbind, hsid, hsess, hnone, hrec]
  · intro hnone hrec1 hrec2
    constructor
    · intro hte
      simp [handleSignal, hsender, hjoin, hreq, hbind, hsid, hsess, hnone,
        hrec1, hrec2, hte]
    · intro hte
      cases h : session.teacher with
      | none =>
        simp [handleSignal, hsender, hjoin, hreq, hbind, hsid, hsess, hnone,
          hrec1, hrec2, h, hte, strTruthy]
      | some t =>
        have ht : t ≠ "" := by
          intro h0; exact hteach (by simp [h, h0])
        have hts : ¬ t = sender := by
          intro h0; exact hte (by simp [h, h0])
        simp [handleSignal, hsender, hjoin, hreq, hbind, hsid, hsess, hnone,
          hrec1, hrec2, h, hts, strTruthy, ht]

/-- Witness for C1: a session with teacher `"t"` and students
`["s1", "s2"]`, an ICE payload from `"s1"` carrying both an explicit
target and a recipient class — only the explicit target is served. -/
theorem routing_precedence_witness :
    (handleSignal
        { server :=
            { sessions := [("room", { teacher := some "t", students := ["s1", "s2"] })],
              socketToSession := [("s1", "room")] },
          cache := [] }
        "s1"
        { type := "ice", sessionId := none, roleField := none,
          targetSocketId := some "s2", recipient := some "teacher",
          fromField := none, body := "cand" }).2
      = [⟨"s2",
          relayEnvelope
            { type := "ice", sessionId := none, roleField := none,
              targetSocketId := some "s2", recipient := some "teacher",
              fromField := none, body := "cand" } "s1"⟩] := by
  exact (routing_precedence
    { server :=
        { sessions := [("room", { teacher := some "t", students := ["s1", "s2"] })],
          socketToSession := [("s1", "room")] },
      cache := [] }
    "s1"
    { type := "ice", sessionId := none, roleField := none,
      targetSocketId := some "s2", recipient := some "teacher",
      fromField := none, body := "cand" }
    "room" { sessionId := "room", teacher := some "t", students := ["s1", "s2"] }
    (by decide) (by decide) (by decide) (by decide) (by decide) (by decide)
    (by decide)).1 "s2" rfl

/-! ## Claim C9 — sender identity stamped on every relayed copy -/

/-- C9: every copy of a negotiation message relayed by the router carries
`from` equal to the server-assigned identity of the actual sender; a
client-supplied `from` field is overwritten by the spread-then-assign
`{ ...p, from }`. -/
theorem relay_from_is_sender (st : RouterState) (sender : String)
    (p : SignalPayload) (sid : String) (session : SessionData)
    (hsender : sender ≠ "")
    (hbind : getSessionForSocket st.server sender = some sid)
    (hsid : sid ≠ "")
    (hsess : getSession st.server.sessions sid = some session)
    (hjoin : p.type ≠ "join")
    (hreq : p.type ≠ "request-state") :
    ∀ a ∈ (handleSignal st sender p).2,
      a.env.payload = WirePayload.relay { p with fromField := some sender } := by
  intro a ha
  have hout : a.env = relayEnvelope p sender := by
    rcases hts : p.targetSocketId with _ | t
    · by_cases h1 : p.recipient = some "teacher"
      · cases hte : session.teacher with
        | none =>
          simp [handleSignal, hsender, hjoin, hreq, hbind, hsid, hsess, hts,
            h1, hte, strTruthy] at ha
        | some t =>
          by_cases ht0 : t = ""
          · simp [handleSignal, hsender, hjoin, hreq, hbind, hsid, hsess,
              hts, h1, hte, ht0, strTruthy] at ha
          · simp [handleSignal, hsender, hjoin, hreq, hbind, hsid, hsess,
              hts, h1, hte, ht0, strTruthy] at ha
            simp [ha]
      · by_cases h2 : p.recipient = some "students"
        · simp [handleSignal, hsender, hjoin, hreq, hbind, hsid, hsess, hts,
            h1, h2] at ha
          obtain ⟨x, _, hax⟩ := ha
          simp [← hax]
        · by_cases h3 : session.teacher = some sender
          · simp [handleSignal, hsender, hjoin, hreq, hbind, hsid, hsess,
              hts, h1, h2, h3] at ha
            obtain ⟨x, _, hax⟩ := ha
            simp [← hax]
          · cases hte : session.teacher with
            | none =>
              simp [handleSignal, hsender, hjoin, hreq, hbind, hsid, hsess,
                hts, h1, h2, h3, hte, strTruthy] at ha
            | some t =>
              by_cases ht0 : t = ""
              · have hsender' : ¬ ("" = sender) := fun h => hsender h.symm
                simp [handleSignal, hsender, hjoin, hreq, hbind, hsid, hsess,
                  hts, h1, h2, h3, hte, ht0, hsender', strTruthy] at ha
              · have hts' : ¬ t = sender := by
                  intro h0; exact h3 (by simp [hte, h0])
                simp [handleSignal, hsender, hjoin, hreq, hbind, hsid, hsess,
                  hts, h1, h2, h3, hte, ht0, hts', strTruthy] at ha
                simp [ha]
    · simp [handleSignal, hsender, hjoin, hreq, hbind, hsid, hsess, hts] at ha
      simp [ha]
  simp [hout, relayEnvelope]

/-- Witness for C9: a spoofed `from: "mallory"` on an answer from `"s1"`
is overwritten with `"s1"` on the copy delivered to the teacher. -/
theorem relay_from_is_sender_witness :
    ({ target := "t",
       env := relayEnvelope
         { type := "sdp", sessionId := none, roleField := none,
           targetSocketId := none, recipient := none,
           fromField := some "mallory", body := "answer" } "s1" } :
        Attempt).env.payload
      = WirePayload.relay
        { type := "sdp", sessionId := none, roleField := none,
          targetSocketId := none, recipient := none,
          fromField := some "s1", body := "answer" } := by
  have h := relay_from_is_sender
    { server :=
        { sessions := [("room", { teacher := some "t", students := ["s1"] })],
          socketToSession := [("s1", "room")] },
      cache := [] }
    "s1"
    { type := "sdp", sessionId := none, roleField := none,
      targetSocketId := none, recipient := none,
      fromField := some "mallory", body := "answer" }
    "room" { sessionId := "room", teacher := some "t", students := ["s1"] }
    (by decide) (by decide) (by decide) (by decide) (by decide) (by decide)
  exact h
    { target := "t",
      env := relayEnvelope
        { type := "sdp", sessionId := none, roleField := none,
          targetSocketId := none, recipient := none,
          fromField := some "mallory", body := "answer" } "s1" }
    (by decide)

/-! ## Claim C7 — join on a nonexistent session -/

/-- C7 (code bug): the sessions layer's `join` raises
`session not found` when the session does not already exist, although the
registry's own `joinSession` it wraps — and the spec — create the session
idempotently in exactly that case (nothing in the repository ever calls
`createSession`, so the guard makes every session unjoinable). The theorem
evaluates both layers at the failing input. -/
theorem join_throws_when_session_absent :
    join { sessions := [], socketToSession := [] } "abc123" "sock1"
        Role.teacher
      = Except.error "session not found: abc123"
    ∧ (joinSession [] "abc123" "sock1" Role.teacher).2
      = { sessionId := "abc123", teacher := some "sock1", students := [] }
    ∧ getSession (joinSession [] "abc123" "sock1" Role.teacher).1 "abc123"
      = some { sessionId := "abc123", teacher := some "sock1", students := [] } := by
  refine ⟨rfl, rfl, rfl⟩

/-! ## Claim C2 — ICE candidates must wait for the remote description -/

/-- C2 (code bug): on the broadcaster side, `addStudent` calls
`flushQueue()` — which sets `remoteDescSet` — at its end, before any
answer has arrived, so a candidate delivered to `handleIce` after
`addStudent` completes is handed straight to the native `addIceCandidate`
while the entry's remote description is still unset (the call fails and
the candidate is lost) instead of being queued until `handleAnswer`
applies the description. -/
theorem ice_applied_before_remote_description :
    teacherRun none
        [TeacherEvent.addStudentBegin, TeacherEvent.addStudentFinish,
         TeacherEvent.ice "c1"]
      = some { pc := { queuedIce := [], remoteDescSet := true,
                       appliedIce := ["c1"], remoteDesc := none },
               restartAttempts := 0 } := by
  rfl

/-! ## Claim C8 — restart escalation and discard -/

/-- A restart-offer action, for counting. -/
def isRestartOffer : RestartAction → Bool
  | RestartAction.sendRestartOffer _ _ => true
  | _ => false

/-- Remaining restart-offer budget of a broadcaster-side entry. -/
def entryBudget : Option TeacherEntry → Nat
  | none => 0
  | some ent => 3 - ent.restartAttempts

theorem teacherFailures_offer_bound (target : String) :
    ∀ (n : Nat) (st : Option TeacherEntry),
      ((teacherFailures target n st).2.countP isRestartOffer)
        ≤ entryBudget st := by
  intro n
  induction n with
  | zero => intro st; simp [teacherFailures]
  | succ m ih =>
    intro st
    cases st with
    | none =>
      have hrest := ih none
      simp only [teacherFailures, teacherAttemptRestart]
      simp [List.countP_cons, isRestartOffer]
      simpa [entryBudget] using hrest
    | some ent =>
      by_cases h3 : ent.restartAttempts ≥ 3
      · have hrest := ih none
        simp only [teacherFailures, teacherAttemptRestart, if_pos h3]
        simp [List.countP_cons, isRestartOffer]
        simp only [entryBudget] at hrest ⊢
        omega
      · have hrest :=
          ih (some { ent with restartAttempts := ent.restartAttempts + 1 })
        simp only [teacherFailures, teacherAttemptRestart, if_neg h3]
        simp [List.countP_cons, isRestartOffer]
        simp only [entryBudget] at hrest ⊢
        omega

theorem studentFailures_never_discard (t : String) (pc : PCState) :
    ∀ n : Nat,
      studentFailures t n (some { pc := pc, restartAttempts := 0 })
        = (some { pc := pc, restartAttempts := 0 },
           List.replicate n (RestartAction.sendRestartOffer "teacher" t)) := by
  intro n
  induction n with
  | zero => simp [studentFailures]
  | succ m ih =>
    simp [studentFailures, studentAttemptRestart, ih, List.replicate]

/-- C8 counterexample: on the receiver side the attempt counter is never
incremented on the failure path, so the fourth `failed`/`disconnected`
occurrence still triggers a restart offer and the entry is not discarded,
contradicting the claim that the fourth failure discards the entry. -/
theorem student_fourth_failure_not_discarded :
    studentFailures "t" 4 (some { pc := freshPC, restartAttempts := 0 })
      = (some { pc := freshPC, restartAttempts := 0 },
         [RestartAction.sendRestartOffer "teacher" "t",
          RestartAction.sendRestartOffer "teacher" "t",
          RestartAction.sendRestartOffer "teacher" "t",
          RestartAction.sendRestartOffer "teacher" "t"]) := by
  rfl

/-- C8 (amended): on the broadcaster side the first three failures each
send an ICE-restart offer (`recipient: "students"` with the explicit
target) while incrementing the counter, and the fourth deletes the entry
and schedules reconstruction after a fixed 1500 ms (not randomized)
delay, so an entry's consecutive restart offers are bounded by three; on
the receiver side the counter is never incremented on the failure path,
so every failure triggers another restart offer and the entry is never
discarded by failures alone. -/
theorem restart_escalation_amended (target t : String) (pc pc' : PCState) :
    (teacherFailures target 4 (some { pc := pc, restartAttempts := 0 })
      = (none,
         [RestartAction.sendRestartOffer "students" target,
          RestartAction.sendRestartOffer "students" target,
          RestartAction.sendRestartOffer "students" target,
          RestartAction.scheduleRecreate 1500]))
    ∧ (∀ n st, ((teacherFailures target n st).2.countP isRestartOffer) ≤ 3)
    ∧ (∀ n, studentFailures t n (some { pc := pc', restartAttempts := 0 })
        = (some { pc := pc', restartAttempts := 0 },
           List.replicate n (RestartAction.sendRestartOffer "teacher" t))) := by
  refine ⟨?_, ?_, studentFailures_never_discard t pc'⟩
  · simp [teacherFailures, teacherAttemptRestart]
  · intro n st
    calc (teacherFailures target n st).2.countP isRestartOffer
        ≤ entryBudget st := teacherFailures_offer_bound target n st
      _ ≤ 3 := by
          cases st with
          | none => simp [entryBudget]
          | some ent => simp [entryBudget]

/-! ## Claim C3 — single-teacher invariant -/

/-- A registry-level operation: `createSession` or `joinSession`. -/
inductive RegOp where
  | create (sid : String) (t : Option String)
  | joinOp (sid sock : String) (role : Role)
deriving Repr, DecidableEq

def applyRegOp (r : Registry) : RegOp → Registry
  | RegOp.create sid t => (createSession r sid t).1
  | RegOp.joinOp sid sock role => (joinSession r sid sock role).1

def applyRegOps (r : Registry) : List RegOp → Registry
  | [] => r
  | op :: ops => applyRegOps (applyRegOp r op) ops

/-- The single-teacher invariant: in every session, the identity in the
teacher slot is not a member of the student set. -/
def TeacherNotStudent (r : Registry) : Prop :=
  ∀ e ∈ r, ∀ t, e.2.teacher = some t → t ∉ e.2.students

theorem getD_session_inv {r : Registry} {sid : String}
    (hr : TeacherNotStudent r) :
    ∀ t, ((mapGet r sid).getD { teacher := none, students := [] }).teacher
          = some t →
      t ∉ ((mapGet r sid).getD { teacher := none, students := [] }).students := by
  cases hget : mapGet r sid with
  | none => simp
  | some s0 =>
    intro t ht
    simp only [Option.getD] at ht ⊢
    exact hr (sid, s0) (mapGet_mem hget) t ht

theorem tns_createSession (r : Registry) (sid : String) (tOpt : Option String)
    (hr : TeacherNotStudent r) :
    TeacherNotStudent (createSession r sid tOpt).1 := by
  intro e he t ht
  simp only [createSession] at he
  rcases mem_mapSet he with hold | heq
  · exact hr e hold t ht
  · rw [heq] at ht ⊢
    cases htr : strTruthy tOpt with
    | true =>
      cases tOpt with
      | none => simp [strTruthy] at htr
      | some t0 =>
        simp only [htr, if_true] at ht ⊢
        have ht' : t0 = t := by simpa using ht
        rw [← ht']
        exact not_mem_setDelete_self _ _
    | false =>
      simp only [htr, Bool.false_eq_true, if_false] at ht ⊢
      exact getD_session_inv hr t ht

theorem tns_joinSession (r : Registry) (sid sock : String) (role : Role)
    (hr : TeacherNotStudent r) :
    TeacherNotStudent (joinSession r sid sock role).1 := by
  intro e he t ht
  simp only [joinSession] at he
  rcases mem_mapSet he with hold | heq
  · exact hr e hold t ht
  · rw [heq] at ht ⊢
    cases role with
    | teacher =>
      have ht' : sock = t := by simpa using ht
      rw [← ht']
      exact not_mem_setDelete_self _ _
    | student =>
      by_cases hts : (((mapGet r sid).getD
          { teacher := none, students := [] }).teacher == some sock) = true
      · simp only [hts, if_true] at ht ⊢
        exact getD_session_inv hr t ht
      · simp only [hts, Bool.false_eq_true, if_false] at ht ⊢
        have ht' : ((mapGet r sid).getD
            { teacher := none, students := [] }).teacher = some t := ht
        intro hmem
        have hmem' : t ∈ setAdd ((mapGet r sid).getD
            { teacher := none, students := [] }).students sock := hmem
        rcases mem_setAdd hmem' with hmem1 | hmem1
        · exact getD_session_inv hr t ht' hmem1
        · apply hts
          rw [ht', hmem1]
          simp

theorem tns_applyRegOps :
    ∀ (ops : List RegOp) (r : Registry), TeacherNotStudent r →
      TeacherNotStudent (applyRegOps r ops) := by
  intro ops
  induction ops with
  | nil => intro r hr; exact hr
  | cons op rest ih =>
    intro r hr
    apply ih
    cases op with
    | create sid t => exact tns_createSession r sid t hr
    | joinOp sid sock role => exact tns_joinSession r sid sock role hr

/-- C3: after any sequence of `createSession`/`joinSession` calls starting
from the empty registry, the identity in a session's (single-valued)
teacher slot is never simultaneously in that session's student set;
joining as teacher removes the identity from the student set in the same
operation; and joining as student while being the session's teacher
leaves the session table and the returned view unchanged. -/
theorem single_teacher_invariant (ops : List RegOp) (r : Registry)
    (sid sock : String) (s0 : InternalSession) :
    (∀ e ∈ applyRegOps [] ops, ∀ t, e.2.teacher = some t → t ∉ e.2.students)
    ∧ ((joinSession r sid sock Role.teacher).2.teacher = some sock
       ∧ sock ∉ (joinSession r sid sock Role.teacher).2.students)
    ∧ (KeysNodup r → mapGet r sid = some s0 → s0.teacher = some sock →
        (joinSession r sid sock Role.student).1 = r
        ∧ (joinSession r sid sock Role.student).2 = toPublic sid s0) := by
  refine ⟨tns_applyRegOps ops [] (by intro e he; simp at he), ?_, ?_⟩
  · constructor
    · simp [joinSession, toPublic]
    · simp only [joinSession, toPublic]
      exact not_mem_setDelete_self _ _
  · intro hk hget hteach
    have hbeq : ((((mapGet r sid).getD
        { teacher := none, students := [] }).teacher == some sock)) = true := by
      simp [hget, Option.getD, hteach]
    constructor
    · simp only [joinSession, hbeq, if_true]
      rw [hget]
      exact mapSet_self hk hget
    · simp only [joinSession, toPublic, hbeq, if_true]
      rw [hget]
      rfl

/-- Witness for C3 at a concrete registry: session `"x"` with teacher
`"t"` and student `"a"`; `"t"` re-joining as a student changes nothing,
and a teacher join never leaves its identity among the students. -/
theorem single_teacher_invariant_witness :
    ((joinSession [("x", { teacher := some "t", students := ["a"] })]
        "x" "t" Role.teacher).2.teacher = some "t"
     ∧ "t" ∉ (joinSession [("x", { teacher := some "t", students := ["a"] })]
        "x" "t" Role.teacher).2.students)
    ∧ ((joinSession [("x", { teacher := some "t", students := ["a"] })]
          "x" "t" Role.student).1
        = [("x", { teacher := some "t", students := ["a"] })]
       ∧ (joinSession [("x", { teacher := some "t", students := ["a"] })]
            "x" "t" Role.student).2
          = toPublic "x" { teacher := some "t", students := ["a"] }) := by
  have h := single_teacher_invariant []
    [("x", { teacher := some "t", students := ["a"] })] "x" "t"
    { teacher := some "t", students := ["a"] }
  exact ⟨h.2.1, h.2.2 (by unfold KeysNodup; decide) (by decide) (by decide)⟩

/-! ## `removeSocket` characterization lemmas -/

/-- What `removeSocket` leaves of one entry. -/
def rsNewEntry (sock : String) (e : String × InternalSession) :
    Option (String × InternalSession) :=
  let step := removeFromSession sock e.2
  if step.2 then (if sessionEmptyJs step.1 then none else some (e.1, step.1))
  else some e

/-- Whether `removeSocket` reports this entry in `removedSessions`. -/
def rsRemovedId (sock : String) (e : String × InternalSession) :
    Option String :=
  let step := removeFromSession sock e.2
  if step.2 && sessionEmptyJs step.1 then some e.1 else none

/-- Whether `removeSocket` reports this entry in `updatedSessions`. -/
def rsUpdatedId (sock : String) (e : String × InternalSession) :
    Option String :=
  let step := removeFromSession sock e.2
  if step.2 && !sessionEmptyJs step.1 then some e.1 else none

theorem removeSocketState_eq (sock : String) :
    ∀ r : Registry,
      removeSocketState sock r
        = (r.filterMap (rsNewEntry sock), r.filterMap (rsRemovedId sock),
           r.filterMap (rsUpdatedId sock)) := by
  intro r
  induction r with
  | nil => rfl
  | cons p rest ih =>
    obtain ⟨id, s⟩ := p
    simp only [removeSocketState, ih, List.filterMap_cons]
    by_cases hch : (removeFromSession sock s).2 = true
    · by_cases hem : sessionEmptyJs (removeFromSession sock s).1 = true
      · simp [rsNewEntry, rsRemovedId, rsUpdatedId, hch, hem]
      · simp [rsNewEntry, rsRemovedId, rsUpdatedId, hch, hem]
    · simp [rsNewEntry, rsRemovedId, rsUpdatedId, hch]

theorem removeFromSession_clean (sock : String) (s : InternalSession) :
    (removeFromSession sock s).1.teacher ≠ some sock
    ∧ sock ∉ (removeFromSession sock s).1.students := by
  constructor
  · simp only [removeFromSession]
    by_cases ht : (s.teacher == some sock) = true
    · simp [ht]
    · simp [ht]
      intro hcontra
      rw [hcontra] at ht
      simp at ht
  · simp only [removeFromSession]
    exact not_mem_setDelete_self _ _

theorem unchanged_entry_clean {sock : String} {s : InternalSession}
    (h : (removeFromSession sock s).2 = false) :
    s.teacher ≠ some sock ∧ sock ∉ s.students := by
  simp only [removeFromSession, Bool.or_eq_false_iff] at h
  constructor
  · intro hcontra
    rw [hcontra] at h
    simp at h
  · have : sock ∉ s.students := by simpa using h.2
    exact this

theorem removeSocketState_clean (sock : String) (r : Registry) :
    ∀ e ∈ (removeSocketState sock r).1,
      e.2.teacher ≠ some sock ∧ sock ∉ e.2.students := by
  intro e he
  rw [removeSocketState_eq] at he
  simp only at he
  obtain ⟨e0, _, hf⟩ := List.mem_filterMap.1 he
  unfold rsNewEntry at hf
  by_cases hch : (removeFromSession sock e0.2).2 = true
  · by_cases hem : sessionEmptyJs (removeFromSession sock e0.2).1 = true
    · simp [hch, hem] at hf
    · simp only [hch, hem, if_true, Bool.false_eq_true, if_false] at hf
      rw [← Option.some.injEq] at hf
      have : e = (e0.1, (removeFromSession sock e0.2).1) := by
        simpa using hf.symm
      rw [this]
      exact removeFromSession_clean sock e0.2
  · simp only [hch, Bool.false_eq_true, if_false] at hf
    have he0 : e = e0 := by simpa using hf.symm
    rw [he0]
    exact unchanged_entry_clean (by simpa using hch)

/-! ## Claim C4 — exclusive binding -/

/-- C4: a socket's binding is single-valued (the inverse index maps it to
at most one session id), and when a socket bound to session `a` joins a
different existing session `b`, the operation first removes it from every
session it occupies and from the inverse index, and only then performs
the registry join and installs the binding to `b`; in the resulting state
the socket is bound to `b` and is neither teacher nor student of `a`. -/
theorem exclusive_binding (st : ServerState) (a b sock : String)
    (role : Role) (st' : ServerState) (view : SessionData)
    (hbound : mapGet st.socketToSession sock = some a)
    (ha : a ≠ "") (hab : a ≠ b)
    (hok : join st b sock role = Except.ok (st', view)) :
    mapGet (mapDelete st.socketToSession sock) sock = none
    ∧ (∀ e ∈ (removeSocketState sock st.sessions).1,
        e.2.teacher ≠ some sock ∧ sock ∉ e.2.students)
    ∧ st' = { sessions :=
                (joinSession (removeSocketState sock st.sessions).1 b sock
                  role).1,
              socketToSession :=
                mapSet (mapDelete st.socketToSession sock) sock b }
    ∧ mapGet st'.socketToSession sock = some b
    ∧ (∀ s', mapGet st'.sessions a = some s' →
        s'.teacher ≠ some sock ∧ sock ∉ s'.students) := by
  have hst' : st' =
      { sessions :=
          (joinSession (removeSocketState sock st.sessions).1 b sock role).1,
        socketToSession :=
          mapSet (mapDelete st.socketToSession sock) sock b } := by
    simp only [join] at hok
    by_cases hb : (b == "") = true
    · simp [hb] at hok
    · rw [if_neg hb] at hok
      by_cases hs : (sock == "") = true
      · simp [hs] at hok
      · rw [if_neg hs] at hok
        cases hbs : getSession st.sessions b with
        | none => rw [hbs] at hok; simp at hok
        | some sd =>
          rw [hbs] at hok
          have hneed : (strTruthy (mapGet st.socketToSession sock)
              && (mapGet st.socketToSession sock != some b)) = true := by
            rw [hbound]
            simp [strTruthy, ha, hab]
          simp only [hneed, if_true] at hok
          have := congrArg (fun x => match x with
            | Except.ok (y, _) => y
            | Except.error _ => st') hok
          simpa using this.symm
  refine ⟨mapGet_mapDelete_self _ _, removeSocketState_clean sock st.sessions,
    hst', ?_, ?_⟩
  · rw [hst']
    exact mapGet_mapSet_self _ _ _
  · intro s' hsa
    rw [hst'] at hsa
    simp only [joinSession] at hsa
    rw [mapGet_mapSet_ne _ _ _ _ (fun h => hab h.symm)] at hsa
    have hmem := mapGet_mem hsa
    exact removeSocketState_clean sock st.sessions (a, s') hmem

/-! ## Claim C5 — empty-session collection -/

theorem mapGet_of_mem_unique {α : Type} {m : List (String × α)} {k : String}
    {v : α} (hmem : (k, v) ∈ m) (huniq : ∀ e ∈ m, e.1 = k → e.2 = v) :
    mapGet m k = some v := by
  induction m with
  | nil => simp at hmem
  | cons p rest ih =>
    rw [mapGet_cons]
    by_cases hp : (p.1 == k) = true
    · have hp1 : p.1 = k := by simpa using hp
      rw [if_pos hp, huniq p (List.mem_cons_self p rest) hp1]
    · rw [if_neg hp]
      rcases List.mem_cons.1 hmem with h1 | h1
      · exfalso; apply hp; rw [← h1]; simp
      · exact ih h1 fun e he h => huniq e (List.mem_cons_of_mem _ he) h

theorem keys_filterMap_sublist {α β : Type}
    (f : (String × α) → Option (String × β))
    (hf : ∀ e e', f e = some e' → e'.1 = e.1) :
    ∀ r : List (String × α),
      ((r.filterMap f).map Prod.fst).Sublist (r.map Prod.fst) := by
  intro r
  induction r with
  | nil => simp
  | cons p rest ih =>
    rw [List.filterMap_cons]
    cases hfp : f p with
    | none =>
      rw [List.map_cons]
      exact ih.trans (List.sublist_cons_self _ _)
    | some e' =>
      rw [List.map_cons, List.map_cons, hf p e' hfp]
      exact List.Sublist.cons₂ _ ih

theorem keysNodup_filterMap {α β : Type}
    {f : (String × α) → Option (String × β)}
    (hf : ∀ e e', f e = some e' → e'.1 = e.1) {r : List (String × α)}
    (hk : KeysNodup r) : KeysNodup (r.filterMap f) := by
  unfold KeysNodup at hk ⊢
  exact List.Nodup.sublist (keys_filterMap_sublist f hf r) hk

theorem rsNewEntry_key {sock : String} {e e' : String × InternalSession}
    (h : rsNewEntry sock e = some e') : e'.1 = e.1 := by
  unfold rsNewEntry at h
  by_cases hch : (removeFromSession sock e.2).2 = true
  · by_cases hem : sessionEmptyJs (removeFromSession sock e.2).1 = true
    · simp [hch, hem] at h
    · simp only [hch, hem, if_true, Bool.false_eq_true, if_false,
        Option.some.injEq] at h
      rw [← h]
  · simp only [hch, Bool.false_eq_true, if_false, Option.some.injEq] at h
    rw [← h]

theorem rsNewEntry_unique {sock : String} {r : Registry} {id : String}
    {s : InternalSession} (hk : KeysNodup r) (hmem : (id, s) ∈ r) :
    ∀ e ∈ r.filterMap (rsNewEntry sock), e.1 = id →
      rsNewEntry sock (id, s) = some e := by
  intro e he hkey
  obtain ⟨e0, he0, hf⟩ := List.mem_filterMap.1 he
  obtain ⟨id0, s0⟩ := e0
  have hk0 : e.1 = id0 := rsNewEntry_key hf
  have hid : id0 = id := by rw [← hk0, hkey]
  subst hid
  have hs : s0 = s := keysNodup_eq_of_mem hk he0 hmem
  rw [← hs]
  exact hf

theorem reportId_origin {r : Registry} {id : String} {s : InternalSession}
    (g : (String × InternalSession) → Bool) (hk : KeysNodup r)
    (hmem : (id, s) ∈ r)
    (hin : id ∈ r.filterMap (fun e => if g e then some e.1 else none)) :
    g (id, s) = true := by
  obtain ⟨e0, he0, hf⟩ := List.mem_filterMap.1 hin
  obtain ⟨id0, s0⟩ := e0
  by_cases hg : g (id0, s0) = true
  · rw [if_pos hg] at hf
    have hid : id0 = id := by simpa using hf
    subst hid
    have hs : s0 = s := keysNodup_eq_of_mem hk he0 hmem
    rwa [hs] at hg
  · simp [hg] at hf

/-- C5 counterexample: `createSession` called without a teacher id is a
registry operation that leaves a session with `teacher = null` and an
empty student set present in the registry. -/
theorem empty_session_retained :
    getSession (createSession [] "x" none).1 "x"
      = some { sessionId := "x", teacher := none, students := [] }
    ∧ sessionEmptyJs { teacher := none, students := [] } = true :=
  ⟨rfl, rfl⟩

/-- C5 (amended): `removeSocket(socketId)` deletes exactly the sessions
that the removal changed and left unoccupied (under the code's emptiness
test: falsy teacher and no students), reporting their ids in
`removedSessions`; a session it changed that stays occupied keeps its
entry with the socket removed and is reported in `updatedSessions`; a
session the socket did not occupy is untouched and unreported.
`createSession` without a teacher id, however, creates and retains an
empty session (see the counterexample), so the collection guarantee is a
property of `removeSocket`, not of every registry operation. -/
theorem empty_session_collection_amended (sock : String) (r : Registry)
    (hk : KeysNodup r) :
    (∀ id s, (id, s) ∈ r → (removeFromSession sock s).2 = true →
      ((sessionEmptyJs (removeFromSession sock s).1 = true →
          mapGet (removeSocketState sock r).1 id = none
          ∧ id ∈ (removeSocketState sock r).2.1)
       ∧ (sessionEmptyJs (removeFromSession sock s).1 = false →
          mapGet (removeSocketState sock r).1 id
            = some (removeFromSession sock s).1
          ∧ id ∈ (removeSocketState sock r).2.2)))
    ∧ (∀ id s, (id, s) ∈ r → (removeFromSession sock s).2 = false →
        mapGet (removeSocketState sock r).1 id = some s
        ∧ id ∉ (removeSocketState sock r).2.1
        ∧ id ∉ (removeSocketState sock r).2.2) := by
  constructor
  · intro id s hmem hch
    constructor
    · intro hem
      constructor
      · rw [removeSocketState_eq]
        apply mapGet_eq_none_of_keys
        intro e he hkey
        have hval := rsNewEntry_unique hk hmem e he hkey
        simp [rsNewEntry, hch, hem] at hval
      · rw [removeSocketState_eq]
        exact List.mem_filterMap.2
          ⟨(id, s), hmem, by simp [rsRemovedId, hch, hem]⟩
    · intro hem
      constructor
      · rw [removeSocketState_eq]
        apply mapGet_of_mem_unique
        · exact List.mem_filterMap.2
            ⟨(id, s), hmem, by simp [rsNewEntry, hch, hem]⟩
        · intro e he hkey
          have hval := rsNewEntry_unique hk hmem e he hkey
          simp only [rsNewEntry, hch, if_true, hem, Bool.false_eq_true,
            if_false, Option.some.injEq] at hval
          rw [← hval]
      · rw [removeSocketState_eq]
        exact List.mem_filterMap.2
          ⟨(id, s), hmem, by simp [rsUpdatedId, hch, hem]⟩
  · intro id s hmem hch
    refine ⟨?_, ?_, ?_⟩
    · rw [removeSocketState_eq]
      apply mapGet_of_mem_unique
      · exact List.mem_filterMap.2
          ⟨(id, s), hmem, by simp [rsNewEntry, hch]⟩
      · intro e he hkey
        have hval := rsNewEntry_unique hk hmem e he hkey
        simp only [rsNewEntry, hch, Bool.false_eq_true, if_false,
          Option.some.injEq] at hval
        rw [← hval]
    · rw [removeSocketState_eq]
      intro hin
      have hin' : id ∈ r.filterMap (fun e =>
          if (removeFromSession sock e.2).2
              && sessionEmptyJs (removeFromSession sock e.2).1
            then some e.1 else none) := hin
      have hg := reportId_origin _ hk hmem hin'
      simp only [hch] at hg
      simp at hg
    · rw [removeSocketState_eq]
      intro hin
      have hin' : id ∈ r.filterMap (fun e =>
          if (removeFromSession sock e.2).2
              && !sessionEmptyJs (removeFromSession sock e.2).1
            then some e.1 else none) := hin
      have hg := reportId_origin _ hk hmem hin'
      simp only [hch] at hg
      simp at hg

/-- Witness for C5's amended theorem: removing `"sock"` from a registry
where it is the sole occupant of `"A"`, a student of `"B"` (which keeps
student `"x"`), and absent from `"C"`. -/
theorem empty_session_collection_amended_witness :
    (mapGet (removeSocketState "sock"
        [("A", { teacher := some "sock", students := [] }),
         ("B", { teacher := none, students := ["sock", "x"] }),
         ("C", { teacher := some "t", students := ["y"] })]).1 "A" = none
     ∧ "A" ∈ (removeSocketState "sock"
        [("A", { teacher := some "sock", students := [] }),
         ("B", { teacher := none, students := ["sock", "x"] }),
         ("C", { teacher := some "t", students := ["y"] })]).2.1)
    ∧ (mapGet (removeSocketState "sock"
        [("A", { teacher := some "sock", students := [] }),
         ("B", { teacher := none, students := ["sock", "x"] }),
         ("C", { teacher := some "t", students := ["y"] })]).1 "B"
        = some { teacher := none, students := ["x"] }
       ∧ "B" ∈ (removeSocketState "sock"
        [("A", { teacher := some "sock", students := [] }),
         ("B", { teacher := none, students := ["sock", "x"] }),
         ("C", { teacher := some "t", students := ["y"] })]).2.2)
    ∧ mapGet (removeSocketState "sock"
        [("A", { teacher := some "sock", students := [] }),
         ("B", { teacher := none, students := ["sock", "x"] }),
         ("C", { teacher := some "t", students := ["y"] })]).1 "C"
        = some { teacher := some "t", students := ["y"] } := by
  have h := empty_session_collection_amended "sock"
    [("A", { teacher := some "sock", students := [] }),
     ("B", { teacher := none, students := ["sock", "x"] }),
     ("C", { teacher := some "t", students := ["y"] })]
    (by unfold KeysNodup; decide)
  refine ⟨?_, ?_, ?_⟩
  · exact (h.1 "A" { teacher := some "sock", students := [] }
      (by decide) (by decide)).1 (by decide)
  · have hb := (h.1 "B" { teacher := none, students := ["sock", "x"] }
      (by decide) (by decide)).2 (by decide)
    exact ⟨by simpa using hb.1, hb.2⟩
  · exact (h.2 "C" { teacher := some "t", students := ["y"] }
      (by decide) (by decide)).1

/-- Witness for C4: socket `"sock"` is teacher of session `"A"` and then
joins session `"B"` as a student. -/
theorem exclusive_binding_witness :
    mapGet (mapDelete [("sock", "A")] "sock") "sock" = none
    ∧ mapGet
        ({ sessions := [("B", { teacher := none, students := ["sock"] })],
           socketToSession := [("sock", "B")] } : ServerState).socketToSession
        "sock" = some "B" := by
  have h := exclusive_binding
    { sessions := [("A", { teacher := some "sock", students := [] }),
                   ("B", { teacher := none, students := [] })],
      socketToSession := [("sock", "A")] }
    "A" "B" "sock" Role.student
    { sessions := [("B", { teacher := none, students := ["sock"] })],
      socketToSession := [("sock", "B")] }
    { sessionId := "B", teacher := none, students := ["sock"] }
    rfl (by decide) (by decide) rfl
  exact ⟨h.1, h.2.2.2.1⟩

/-- Witness for C8's amended theorem at concrete inputs. -/
theorem restart_escalation_amended_witness :
    (teacherFailures "stu" 4 (some { pc := freshPC, restartAttempts := 0 })
      = (none,
         [RestartAction.sendRestartOffer "students" "stu",
          RestartAction.sendRestartOffer "students" "stu",
          RestartAction.sendRestartOffer "students" "stu",
          RestartAction.scheduleRecreate 1500]))
    ∧ ((teacherFailures "stu" 9
          (some { pc := freshPC, restartAttempts := 0 })).2.countP
            isRestartOffer ≤ 3)
    ∧ (studentFailures "tea" 5 (some { pc := freshPC, restartAttempts := 0 })
        = (some { pc := freshPC, restartAttempts := 0 },
           List.replicate 5 (RestartAction.sendRestartOffer "teacher" "tea"))) :=
  ⟨(restart_escalation_amended "stu" "tea" freshPC freshPC).1,
   (restart_escalation_amended "stu" "tea" freshPC freshPC).2.1 9
     (some { pc := freshPC, restartAttempts := 0 }),
   (restart_escalation_amended "stu" "tea" freshPC freshPC).2.2 5⟩

/-! ## Claim C6 — late-join replay -/

/-- The replay sequence as the spec (§4.4) words it: every cached board
patch in arrival order wrapped in the board envelope, then the last
avatar pose if any, then the last photo if any reduced to
`photo`/`w`/`h`, then the last landmarks if any — nothing else. -/
def specReplay (c : CacheState) (src : Option String) : List Envelope :=
  c.patches.map (fun q =>
    { channel := "/board", payload := WirePayload.boardPatch q,
      envFrom := some src })
  ++ (match c.lastAvatar with
      | some a =>
        [{ channel := "/avatar", payload := WirePayload.avatarPose a,
           envFrom := some src }]
      | none => [])
  ++ (match c.lastPhoto with
      | some ph =>
        [{ channel := "/avatar",
           payload := WirePayload.avatarPhoto ph.photo ph.w ph.h,
           envFrom := some src }]
      | none => [])
  ++ (match c.lastLandmarks with
      | some l =>
        [{ channel := "/avatar", payload := WirePayload.avatarLandmarks l,
           envFrom := some src }]
      | none => [])

/-- A send that replays cached state (board or avatar channel). -/
def isCacheAttempt (a : Attempt) : Bool :=
  a.env.channel == "/board" || a.env.channel == "/avatar"

/-- Sequential execution of a list of sends against the send registry:
each send is attempted in its own try/catch (and `sendTo` itself never
throws), so execution never aborts early. -/
def executeAttempts (table : SocketTable) :
    List Attempt → List (Attempt × Bool × SendOutcome)
  | [] => []
  | a :: rest => (a, sendTo table a.target) :: executeAttempts table rest

theorem executeAttempts_append (table : SocketTable)
    (l1 l2 : List Attempt) :
    executeAttempts table (l1 ++ l2)
      = executeAttempts table l1 ++ executeAttempts table l2 := by
  induction l1 with
  | nil => rfl
  | cons a rest ih => simp [executeAttempts, ih]

theorem executeAttempts_length (table : SocketTable) (l : List Attempt) :
    (executeAttempts table l).length = l.length := by
  induction l with
  | nil => rfl
  | cons a rest ih => simp [executeAttempts, ih]

theorem joinReplayAttempts_eq (c : CacheState) (sock : String)
    (tid : Option String) :
    joinReplayAttempts c sock tid
      = (specReplay c tid).map (fun e => { target := sock, env := e }) := by
  rcases c with ⟨patches, lastA, lastP, lastL⟩
  unfold joinReplayAttempts specReplay
  cases patches <;> cases lastA <;> cases lastP <;> cases lastL <;> simp

theorem specReplay_channels (c : CacheState) (tid : Option String) :
    ∀ e ∈ specReplay c tid,
      e.channel = "/board" ∨ e.channel = "/avatar" := by
  rcases c with ⟨patches, lastA, lastP, lastL⟩
  unfold specReplay
  intro e he
  rcases List.mem_append.1 he with h1 | h1
  · rcases List.mem_append.1 h1 with h2 | h2
    · rcases List.mem_append.1 h2 with h3 | h3
      · obtain ⟨q, _, rfl⟩ := List.mem_map.1 h3
        left; rfl
      · right
        cases lastA with
        | none => simp at h3
        | some a =>
          have he' :
              e = { channel := "/avatar",
                    payload := WirePayload.avatarPose a,
                    envFrom := some tid } := by
            simpa using h3
          rw [he']
    · right
      cases lastP with
      | none => simp at h2
      | some ph =>
        have he' :
            e = { channel := "/avatar",
                  payload := WirePayload.avatarPhoto ph.photo ph.w ph.h,
                  envFrom := some tid } := by
          simpa using h2
        rw [he']
  · right
    cases lastL with
    | none => simp at h1
    | some l =>
      have he' :
          e = { channel := "/avatar",
                payload := WirePayload.avatarLandmarks l,
                envFrom := some tid } := by
        simpa using h1
      rw [he']

/-- C6: a student join (and any request-state) replays the cache only to
the triggering connection in the fixed order board patches → pose →
photo (reduced to photo/w/h) → landmarks, and nothing else from the
cache: filtering the join's sends to the cache channels yields exactly
the spec replay sequence targeted at the joiner, every cache send
targets the joiner, every other send is the `peer-joined` notification;
a request-state triggers exactly the replay sequence (with `from: null`)
and nothing else; and execution of any send list proceeds send by send
without aborting, so one failed send never prevents the remaining
attempts. -/
theorem late_join_replay (st : RouterState) (sock : String)
    (p : SignalPayload) (sid : String) :
    (∀ server1 session,
       p.type = "join" → p.sessionId = some sid → sid ≠ "" →
       p.roleField = some "student" → sock ≠ "" →
       join st.server sid sock Role.student = Except.ok (server1, session) →
       (((handleSignal st sock p).2.filter isCacheAttempt
           = (specReplay (cacheFor st.cache sid) session.teacher).map
               (fun e => { target := sock, env := e }))
        ∧ (∀ a ∈ (handleSignal st sock p).2,
             (isCacheAttempt a = true → a.target = sock)
             ∧ (isCacheAttempt a = false →
                 a.env = peerJoinedEnvelope sock "student"))))
    ∧ (p.type = "request-state" →
       (p.sessionId = some sid
        ∨ (p.sessionId = none
           ∧ getSessionForSocket st.server sock = some sid)) →
       sid ≠ "" → sock ≠ "" →
       (handleSignal st sock p).2
         = (specReplay (cacheFor st.cache sid) none).map
             (fun e => { target := sock, env := e }))
    ∧ (∀ (table : SocketTable) (atts1 atts2 : List Attempt),
         executeAttempts table (atts1 ++ atts2)
           = executeAttempts table atts1 ++ executeAttempts table atts2
         ∧ (executeAttempts table atts1).length = atts1.length) := by
  refine ⟨?_, ?_, ?_⟩
  · intro server1 session h1 h2 h3 h4 h5 h6
    have hred : (handleSignal st sock p).2
        = (if strTruthy session.teacher then
             [{ target := session.teacher.getD "",
                env := peerJoinedEnvelope sock "student" }]
           else [])
          ++ joinReplayAttempts (cacheFor st.cache sid) sock
               session.teacher := by
      simp [handleSignal, handleJoin, h1, h2, h3, h4, h5, h6]
    have hX : ∀ a ∈ joinReplayAttempts (cacheFor st.cache sid) sock
        session.teacher, isCacheAttempt a = true ∧ a.target = sock := by
      intro a ha
      rw [joinReplayAttempts_eq] at ha
      obtain ⟨e, he, rfl⟩ := List.mem_map.1 ha
      rcases specReplay_channels _ _ e he with h | h <;>
        simp [isCacheAttempt, h]
    constructor
    · rw [hred, List.filter_append]
      have hfX : (joinReplayAttempts (cacheFor st.cache sid) sock
          session.teacher).filter isCacheAttempt
          = joinReplayAttempts (cacheFor st.cache sid) sock
              session.teacher := by
        apply List.filter_eq_self.mpr
        intro a ha
        exact (hX a ha).1
      rw [hfX, joinReplayAttempts_eq]
      cases hT : strTruthy session.teacher
      · simp
      · simp [isCacheAttempt, peerJoinedEnvelope]
    · intro a ha
      rw [hred] at ha
      rcases List.mem_append.1 ha with hn | hr
      · have hae :
            a = { target := session.teacher.getD "",
                  env := peerJoinedEnvelope sock "student" } := by
          cases hT : strTruthy session.teacher
          · rw [hT] at hn; simp at hn
          · rw [hT] at hn; simpa using hn
        constructor
        · intro hc
          rw [hae] at hc
          simp [isCacheAttempt, peerJoinedEnvelope] at hc
        · intro _
          rw [hae]
      · constructor
        · intro _
          exact (hX a hr).2
        · intro hc
          rw [(hX a hr).1] at hc
          simp at hc
  · intro h1 h2 h3 h4
    rcases h2 with h2 | ⟨h2a, h2b⟩
    · simp [handleSignal, handleRequestState, h1, h2, h3, h4,
        joinReplayAttempts_eq]
    · simp [handleSignal, handleRequestState, h1, h2a, h2b, h3, h4,
        joinReplayAttempts_eq]
  · intro table atts1 atts2
    exact ⟨executeAttempts_append table atts1 atts2,
      executeAttempts_length table atts1⟩

/-- Witness for C6 at a concrete state: student `"s2"` joins session
`"room"` (teacher `"t"`, cached patches `"p1"`, `"p2"`, a pose, a photo
with ancillary landmark data, and landmarks), and later requests state
explicitly. -/
theorem late_join_replay_witness :
    ((handleSignal
        { server :=
            { sessions := [("room", { teacher := some "t", students := [] })],
              socketToSession := [] },
          cache := [("room",
            { patches := ["p1", "p2"], lastAvatar := some "pose",
              lastPhoto := some { photo := "ph", w := 4, h := 3,
                                  ancillary := some "lm-extra" },
              lastLandmarks := some "lms" })] }
        "s2"
        { type := "join", sessionId := some "room",
          roleField := some "student", targetSocketId := none,
          recipient := none, fromField := none, body := "" }).2.filter
        isCacheAttempt
      = (specReplay
          { patches := ["p1", "p2"], lastAvatar := some "pose",
            lastPhoto := some { photo := "ph", w := 4, h := 3,
                                ancillary := some "lm-extra" },
            lastLandmarks := some "lms" } (some "t")).map
          (fun e => { target := "s2", env := e }))
    ∧ (handleSignal
        { server :=
            { sessions := [("room", { teacher := some "t", students := [] })],
              socketToSession := [] },
          cache := [("room",
            { patches := ["p1", "p2"], lastAvatar := some "pose",
              lastPhoto := some { photo := "ph", w := 4, h := 3,
                                  ancillary := some "lm-extra" },
              lastLandmarks := some "lms" })] }
        "s3"
        { type := "request-state", sessionId := some "room",
          roleField := none, targetSocketId := none,
          recipient := none, fromField := none, body := "" }).2
      = (specReplay
          { patches := ["p1", "p2"], lastAvatar := some "pose",
            lastPhoto := some { photo := "ph", w := 4, h := 3,
                                ancillary := some "lm-extra" },
            lastLandmarks := some "lms" } none).map
          (fun e => { target := "s3", env := e }) := by
  constructor
  · have h := (late_join_replay
      { server :=
          { sessions := [("room", { teacher := some "t", students := [] })],
            socketToSession := [] },
        cache := [("room",
          { patches := ["p1", "p2"], lastAvatar := some "pose",
            lastPhoto := some { photo := "ph", w := 4, h := 3,
                                ancillary := some "lm-extra" },
            lastLandmarks := some "lms" })] }
      "s2"
      { type := "join", sessionId := some "room",
        roleField := some "student", targetSocketId := none,
        recipient := none, fromField := none, body := "" }
      "room").1
      { sessions := [("room", { teacher := some "t", students := ["s2"] })],
        socketToSession := [("s2", "room")] }
      { sessionId := "room", teacher := some "t", students := ["s2"] }
      rfl rfl (by decide) rfl (by decide) rfl
    exact h.1
  · exact ((late_join_replay
      { server :=
          { sessions := [("room", { teacher := some "t", students := [] })],
            socketToSession := [] },
        cache := [("room",
          { patches := ["p1", "p2"], lastAvatar := some "pose",
            lastPhoto := some { photo := "ph", w := 4, h := 3,
                                ancillary := some "lm-extra" },
            lastLandmarks := some "lms" })] }
      "s3"
      { type := "request-state", sessionId := some "room",
        roleField := none, targetSocketId := none,
        recipient := none, fromField := none, body := "" }
      "room").2.1) rfl (Or.inl rfl) (by decide) (by decide)

end CodeX
